import Mathlib

/-!
# Jobly: the job model's statement construction

A development over `models/job.js` (class `Job`) and the partial-update
helper `sqlForPartialUpdate` it calls.  JavaScript values, objects, thrown
errors and the `db.query` primitive are modelled explicitly; each method of
`Job` becomes a function of the database that returns the statements it
executed, in order, together with its result or the error it throws.

The values are those whose string conversion returns, so that a template
literal never throws: symbols and objects that define their own `toString`
are not values of the model.
-/

namespace Jobly

/-! ## JavaScript values -/

/-- A property name of an object that occurs as a value: any name but
`toString`.  An own property of that name would replace the inherited
`Object.prototype.toString` in the string conversion of the object. -/
structure Key where
  name : String
  ordinary : name ≠ "toString"

/-- The property `company` that `Job.get` sets. -/
def Key.company : Key := ⟨"company", by decide⟩

/-- The JavaScript values that travel through the model, each with the
string conversion JavaScript performs on it.

* `num n` is the number with integer value `n`, of magnitude below 2^53,
  where every integer is a number and prints in plain decimal;
* `obj fields` is a plain object (prototype `Object.prototype`), given by
  its own enumerable properties in iteration order;
* `other tag text` is any other value whose string conversion returns and
  which has no property named `title`, `minSalary` or `hasEquity`: a number
  that is not one of the integers above (a fraction, `1e21`, `NaN`), a
  bigint, an array, a date.  It is given by a tag that identifies it and by
  the string it converts to. -/
inductive JsVal where
  | undefined : JsVal
  | null : JsVal
  | bool (b : Bool) : JsVal
  | num (n : Int) (safe : n.natAbs < 9007199254740992) : JsVal
  | str (s : String) : JsVal
  | obj (fields : List (Key × JsVal)) : JsVal
  | other (tag : Nat) (text : String) : JsVal

/-- A plain object that occurs as a value (a filter object, a row): its
properties in iteration order. -/
abbrev PlainObj := List (Key × JsVal)

/-- The entries of an update payload in iteration order: what
`Object.keys` and `Object.values` give on it. -/
abbrev JsObj := List (String × JsVal)

/-- String conversion as a template literal performs it: the literal names
of `undefined`, `null` and the booleans, plain decimal for the integers of
`num`, a string itself, `[object Object]` for a plain object (which has no
own `toString`, so `Object.prototype.toString` answers), and for any other
value the string it is given with. -/
def JsVal.toStr : JsVal → String
  | .undefined => "undefined"
  | .null => "null"
  | .bool true => "true"
  | .bool false => "false"
  | .num n _ => toString n
  | .str s => s
  | .obj _ => "[object Object]"
  | .other _ text => text

/-- The test `v !== undefined`. -/
def JsVal.isDefined : JsVal → Bool
  | .undefined => false
  | _ => true

/-- The test `v === true`. -/
def JsVal.isTrue : JsVal → Bool
  | .bool true => true
  | _ => false

/-- Property read `o.k`, for a name that `Object.prototype` does not define
(as are all the names this module reads): the own property of that name,
`undefined` when `o` has none. -/
def getProp (o : PlainObj) (k : String) : JsVal :=
  match o.find? fun kv => kv.1.name == k with
  | some kv => kv.2
  | none => .undefined

/-- Whether `o` has an own property `k`. -/
def hasProp (o : PlainObj) (k : String) : Bool :=
  o.any fun kv => kv.1.name == k

/-- The statement `delete o.k`. -/
def deleteProp (o : PlainObj) (k : String) : PlainObj :=
  o.filter fun kv => !(kv.1.name == k)

/-- The assignment `o.k = v`: overwrites in place when the property exists,
otherwise adds it last. -/
def setProp (o : PlainObj) (k : Key) (v : JsVal) : PlainObj :=
  if hasProp o k.name then o.map fun kv => if kv.1.name == k.name then (k, v) else kv
  else o ++ [(k, v)]

/-- The expression `rows[0]` as a value: the first row, or `undefined`. -/
def firstRow (rows : List PlainObj) : JsVal :=
  match rows with
  | [] => .undefined
  | r :: _ => .obj r

/-! ## Errors, statements, the database -/

/-- The errors the model's code paths throw. -/
inductive JsError where
  | BadRequestError (message : String) : JsError
  | NotFoundError (message : String) : JsError
  | TypeError : JsError

/-- One call of `db.query(text, params)`. -/
structure Stmt where
  sql : String
  params : List JsVal

/-- The database: the rows `db.query(text, params)` resolves with. -/
abbrev Db := String → List JsVal → List PlainObj

/-- What a call does: the statements it executed, in order, and the value
it returns or the error it throws. -/
structure Outcome (α : Type) where
  log : List Stmt
  result : Except JsError α

/-! ## The partial-update helper -/

/-- The object `sqlForPartialUpdate` returns. -/
structure PartialUpdate where
  setCols : String
  values : List JsVal

/-- Storage column of an application field: the table's entry, or the
field name itself when the table has none. -/
def columnName (jsToSql : List (String × String)) (k : String) : String :=
  match jsToSql.lookup k with
  | some c => c
  | none => k

/-- One fragment `"<column>"=$<index>`. -/
def setFragment (col : String) (idx : Nat) : String :=
  "\"" ++ col ++ "\"=$" ++ toString idx

/-- The pass over the entries: `idx` is the next positional index, `cols`
and `vals` the fragments and values emitted so far. -/
def sqlForPartialUpdate.loop (jsToSql : List (String × String)) :
    List (String × JsVal) → Nat → List String → List JsVal → List String × List JsVal
  | [], _, cols, vals => (cols, vals)
  | (k, v) :: rest, idx, cols, vals =>
    sqlForPartialUpdate.loop jsToSql rest (idx + 1)
      (cols ++ [setFragment (columnName jsToSql k) idx]) (vals ++ [v])

/-- Modelled from the spec: `sqlForPartialUpdate` of `helpers/sql.js`, of
which the sources hold only the test.  For each entry of `dataToUpdate`, in
iteration order, a fragment `"<column>"=$<index>` is emitted, the index
starting at 1 and incrementing per entry, and the entry's value is appended
to the value list; the fragments are joined with `", "`.  A table entry
names the column, a missing one falls back to the field name.  With no
entries the call fails with a BadRequest error. -/
def sqlForPartialUpdate (dataToUpdate : JsObj) (jsToSql : List (String × String)) :
    Except JsError PartialUpdate :=
  if dataToUpdate.isEmpty then
    .error (.BadRequestError "no data")
  else
    let r := sqlForPartialUpdate.loop jsToSql dataToUpdate 1 [] []
    .ok { setCols := ", ".intercalate r.1, values := r.2 }

/-! ## The job model -/

/-- Statement text of `Job.create`. -/
def Job.createSql : String :=
  "INSERT INTO jobs\n            (title, salary, equity, company_handle)\n            VALUES ($1, $2, $3, $4)\n            RETURNING id, title, salary, equity, company_handle AS \"companyHandle\""

/-- The columns of `jobs` that `Job.create` inserts into. -/
def jobsColumns : List String := ["title", "salary", "equity", "company_handle"]

/-- The method `Job.create(data)`. -/
def Job.create (db : Db) (data : PlainObj) : Outcome JsVal :=
  let stmt : Stmt :=
    ⟨Job.createSql,
      [getProp data "title", getProp data "salary", getProp data "equity",
        getProp data "companyHandle"]⟩
  let result := db stmt.sql stmt.params
  let job := firstRow result
  ⟨[stmt], .ok job⟩

/-- The initial `query` of `Job.findAll`. -/
def Job.findAllBase : String :=
  "SELECT j.id, \n                    j.title, \n                    j.salary, \n                    j.equity, \n                    j.company_handle AS \"companyHandle\",\n                    c.name AS \"companyName\"\n            FROM jobs j\n            LEFT JOIN companies AS c ON c.handle = j.company_handle"

/-- The filter part of `Job.findAll`: `values` and `whereClause` after the
three conditionals, from the three destructured parameters. -/
def Job.findAllFilters (title minSalary hasEquity : JsVal) : List JsVal × List String :=
  let values : List JsVal := []
  let whereClause : List String := []
  -- filter by title
  let values := if title.isDefined then values ++ [.str ("%" ++ title.toStr ++ "%")] else values
  let whereClause :=
    if title.isDefined then whereClause ++ ["title ILIKE $" ++ toString values.length]
    else whereClause
  -- filter by minSalary if data is given.
  let values := if minSalary.isDefined then values ++ [minSalary] else values
  let whereClause :=
    if minSalary.isDefined then whereClause ++ ["salary >= $" ++ toString values.length]
    else whereClause
  -- filter by hasEquity if data is given.
  let whereClause := if hasEquity.isTrue then whereClause ++ ["equity > 0"] else whereClause
  (values, whereClause)

/-- The statement `Job.findAll` passes to `db.query`. -/
def Job.findAllStmt (title minSalary hasEquity : JsVal) : Stmt :=
  let query := Job.findAllBase
  let filters := Job.findAllFilters title minSalary hasEquity
  let values := filters.1
  let whereClause := filters.2
  -- condition
  let query :=
    if whereClause.length > 0 then query ++ " WHERE " ++ " AND ".intercalate whereClause
    else query
  let query := query ++ " ORDER BY title "
  ⟨query, values⟩

/-- The method `Job.findAll({ title, minSalary, hasEquity })`.  The
parameter is a destructuring pattern: binding it to `undefined` or `null`
throws a TypeError before the body runs; any other value binds each name to
the property of that name, `undefined` when there is none, as for every
value that is not a plain object. -/
def Job.findAll (db : Db) (filters : JsVal) : Outcome (List PlainObj) :=
  match filters with
  | .undefined => ⟨[], .error .TypeError⟩
  | .null => ⟨[], .error .TypeError⟩
  | .obj o =>
    let stmt :=
      Job.findAllStmt (getProp o "title") (getProp o "minSalary") (getProp o "hasEquity")
    ⟨[stmt], .ok (db stmt.sql stmt.params)⟩
  | _ =>
    let stmt := Job.findAllStmt .undefined .undefined .undefined
    ⟨[stmt], .ok (db stmt.sql stmt.params)⟩

/-- Text of the job lookup of `Job.get`. -/
def Job.getSql : String :=
  "SELECT id,\n                    title,\n                    salary,\n                    equity,\n                    company_handle AS \"companyHandle\"\n            FROM jobs \n            WHERE id =$1"

/-- Text of the company lookup of `Job.get`. -/
def Job.companySql : String :=
  "SELECT handle, name, description, num_employees AS \"numEmployees\", logo_url AS \"logoUrl\"\n            FROM companies\n            WHERE handle = $1"

/-- The method `Job.get(id)`. -/
def Job.get (db : Db) (id : JsVal) : Outcome PlainObj :=
  let jobStmt : Stmt := ⟨Job.getSql, [id]⟩
  let jobRes := db jobStmt.sql jobStmt.params
  match jobRes with
  | [] => ⟨[jobStmt], .error (.NotFoundError ("No job: " ++ id.toStr))⟩
  | job :: _ =>
    let companyStmt : Stmt := ⟨Job.companySql, [getProp job "companyHandle"]⟩
    let companyRes := db companyStmt.sql companyStmt.params
    let job := deleteProp job "companyHandle"
    let job := setProp job Key.company (firstRow companyRes)
    ⟨[jobStmt, companyStmt], .ok job⟩

/-- The `querySql` template of `Job.update`. -/
def Job.updateSql (setCols idVarIdx : String) : String :=
  "UPDATE jobs\n                          SET " ++ setCols ++
  "\n                          WHERE id = " ++ idVarIdx ++
  "\n                          RETURNING id,\n                                    title,\n                                    salary,\n                                    equity,\n                                    company_handle AS \"companyHandle\""

/-- The method `Job.update(id, data)`. -/
def Job.update (db : Db) (id : JsVal) (data : JsObj) : Outcome PlainObj :=
  match sqlForPartialUpdate data [] with
  | .error e => ⟨[], .error e⟩
  | .ok r =>
    let idVarIdx := "$" ++ toString (r.values.length + 1)
    let querySql := Job.updateSql r.setCols idVarIdx
    let stmt : Stmt := ⟨querySql, r.values ++ [id]⟩
    let result := db stmt.sql stmt.params
    match result with
    | [] => ⟨[stmt], .error (.NotFoundError ("No job: " ++ id.toStr))⟩
    | job :: _ => ⟨[stmt], .ok job⟩

/-- Statement text of `Job.remove`. -/
def Job.removeSql : String :=
  "DELETE \n            FROM jobs\n            WHERE id=$1\n            RETURNING id"

/-- The method `Job.remove(id)`: returns nothing on success. -/
def Job.remove (db : Db) (id : JsVal) : Outcome Unit :=
  let stmt : Stmt := ⟨Job.removeSql, [id]⟩
  let result := db stmt.sql stmt.params
  match result with
  | [] => ⟨[stmt], .error (.NotFoundError ("No job: " ++ id.toStr))⟩
  | _ :: _ => ⟨[stmt], .ok ()⟩

/-! ## Reading placeholders off a statement text -/

/-- The placeholder a scan is inside of, if any: `none` outside one,
`some none` right after a `$`, `some (some n)` after `$` and digits
reading `n`. -/
abbrev ScanState := Option (Option Nat)

/-- The placeholder a finished scan state stands for. -/
def flushScan : ScanState → List Nat
  | some (some n) => [n]
  | _ => []

/-- Scan of a text for positional placeholders `$<digits>`. -/
def scanPlaceholders : List Char → ScanState → List Nat
  | [], st => flushScan st
  | c :: cs, st =>
    if c = '$' then flushScan st ++ scanPlaceholders cs (some none)
    else if c.isDigit then
      match st with
      | none => scanPlaceholders cs none
      | some none => scanPlaceholders cs (some (some (c.toNat - 48)))
      | some (some n) => scanPlaceholders cs (some (some (10 * n + (c.toNat - 48))))
    else flushScan st ++ scanPlaceholders cs none

/-- The positional placeholders of a statement text, in order of
appearance. -/
def placeholders (sql : String) : List Nat :=
  scanPlaceholders sql.toList none

/-! ## The listing query as the specification words it -/

/-- The conditions of the applied filters in the order title, salary,
equity, the salary placeholder numbered after the title one when there is
one. -/
def Spec.whereConditions (title minSalary hasEquity : JsVal) : List String :=
  (if title.isDefined then ["title ILIKE $1"] else []) ++
  (if minSalary.isDefined then
    [if title.isDefined then "salary >= $2" else "salary >= $1"] else []) ++
  (if hasEquity.isTrue then ["equity > 0"] else [])

/-- The parameter list: the wrapped title if present, then the minimum
salary if present. -/
def Spec.parameters (title minSalary : JsVal) : List JsVal :=
  (if title.isDefined then [JsVal.str ("%" ++ title.toStr ++ "%")] else []) ++
  (if minSalary.isDefined then [minSalary] else [])

/-- Number of applied filters among title, minSalary and hasEquity. -/
def Spec.appliedFilters (title minSalary hasEquity : JsVal) : Nat :=
  (if title.isDefined then 1 else 0) + (if minSalary.isDefined then 1 else 0) +
  (if hasEquity.isTrue then 1 else 0)

/-- The update statement in closed form: the template filled with one
fragment per key of `data`, numbered from 1, and with `$(n+1)`; the values
of `data` followed by the id. -/
def Job.updateStmt (id : JsVal) (data : JsObj) : Stmt :=
  ⟨Job.updateSql
      (", ".intercalate (((data.map Prod.fst).enumFrom 1).map
        (fun p => setFragment (columnName [] p.2) p.1)))
      ("$" ++ toString (data.length + 1)),
    data.map Prod.snd ++ [id]⟩

/-! ## The partial-update helper: results -/

set_option maxRecDepth 100000

/-- The pass emits, after what it was given, one fragment per entry with
consecutive indices from `idx`, and the entries' values. -/
theorem sqlForPartialUpdate.loop_eq (jsToSql : List (String × String)) :
    ∀ (data : List (String × JsVal)) (idx : Nat) (cols : List String) (vals : List JsVal),
      sqlForPartialUpdate.loop jsToSql data idx cols vals =
        (cols ++ ((data.map Prod.fst).enumFrom idx).map
            (fun p => setFragment (columnName jsToSql p.2) p.1),
          vals ++ data.map Prod.snd) := by
  intro data
  induction data with
  | nil => intro idx cols vals; simp [sqlForPartialUpdate.loop]
  | cons kv rest ih =>
    intro idx cols vals
    obtain ⟨k, v⟩ := kv
    simp [sqlForPartialUpdate.loop, ih, List.enumFrom, List.append_assoc]

/-- On a non-empty mapping the helper returns the joined fragments and the
values. -/
theorem sqlForPartialUpdate_ok (data : JsObj) (jsToSql : List (String × String))
    (h : data ≠ []) :
    sqlForPartialUpdate data jsToSql =
      .ok { setCols := ", ".intercalate (((data.map Prod.fst).enumFrom 1).map
              (fun p => setFragment (columnName jsToSql p.2) p.1)),
            values := data.map Prod.snd } := by
  cases data with
  | nil => exact absurd rfl h
  | cons kv rest =>
    simp [sqlForPartialUpdate, sqlForPartialUpdate.loop_eq]

/-- On the empty mapping the helper fails with BadRequest. -/
theorem sqlForPartialUpdate_nil (jsToSql : List (String × String)) :
    sqlForPartialUpdate [] jsToSql = .error (.BadRequestError "no data") := rfl

/-- C6: `sqlForPartialUpdate(F, T)` fails with BadRequestError exactly when
`F` has no entries, whatever `T` is, and returns otherwise; `Job.update(id,
{})` fails with BadRequestError for every id with no statement executed. -/
theorem sqlForPartialUpdate_badRequest_iff :
    (∀ (F : JsObj) (T : List (String × String)),
      ((∃ msg, sqlForPartialUpdate F T = .error (.BadRequestError msg)) ↔ F = []) ∧
      ((∃ r, sqlForPartialUpdate F T = .ok r) ↔ F ≠ [])) ∧
    (∀ (db : Db) (id : JsVal),
      (∃ msg, (Job.update db id []).result = .error (.BadRequestError msg)) ∧
      (Job.update db id []).log = []) := by
  refine ⟨fun F T => ?_, fun db id => ⟨⟨_, rfl⟩, rfl⟩⟩
  cases F with
  | nil =>
    refine ⟨⟨fun _ => rfl, fun _ => ⟨_, rfl⟩⟩, ⟨?_, fun h => absurd rfl h⟩⟩
    rintro ⟨r, hr⟩
    rw [sqlForPartialUpdate_nil] at hr
    cases hr
  | cons kv rest =>
    have hne : kv :: rest ≠ [] := List.cons_ne_nil kv rest
    have hok := sqlForPartialUpdate_ok (kv :: rest) T hne
    refine ⟨⟨?_, fun h => absurd h hne⟩, ⟨fun _ => hne, fun _ => ⟨_, hok⟩⟩⟩
    rintro ⟨msg, hmsg⟩
    rw [hok] at hmsg
    cases hmsg

/-! ## Objects -/

theorem getProp_deleteProp_of_ne (o : PlainObj) (k k' : String) (h : k' ≠ k) :
    getProp (deleteProp o k) k' = getProp o k' := by
  induction o with
  | nil => rfl
  | cons kv rest ih =>
    unfold getProp deleteProp at *
    by_cases ha : kv.1.name = k
    · have hk' : (k == k') = false := by simpa using fun e : k = k' => h e.symm
      have hk : (kv.1.name == k') = false := by rw [ha]; exact hk'
      simp only [List.filter, ha, beq_self_eq_true, Bool.not_true, List.find?, hk, hk']
      exact ih
    · have hak : (kv.1.name == k) = false := by simpa using ha
      simp only [List.filter, hak, Bool.not_false, List.find?]
      cases hk : (kv.1.name == k') with
      | true => rfl
      | false => exact ih

theorem hasProp_deleteProp_self (o : PlainObj) (k : String) :
    hasProp (deleteProp o k) k = false := by
  simp [hasProp, deleteProp]

theorem find_eq_none_of_hasProp_false (o : PlainObj) (k : String)
    (h : hasProp o k = false) : (o.find? fun kv => kv.1.name == k) = none := by
  induction o with
  | nil => rfl
  | cons kv rest ih =>
    simp only [hasProp, List.any_cons, Bool.or_eq_false_iff] at h
    rw [List.find?_cons, h.1]
    exact ih (by simpa [hasProp] using h.2)

theorem getProp_eq_undefined_of_hasProp_false (o : PlainObj) (k : String)
    (h : hasProp o k = false) : getProp o k = .undefined := by
  unfold getProp
  rw [find_eq_none_of_hasProp_false o k h]

theorem getProp_map_overwrite (o : PlainObj) (k : Key) (k' : String) (v : JsVal) :
    getProp (o.map fun kv => if kv.1.name == k.name then (k, v) else kv) k' =
      if k' == k.name then (if hasProp o k.name then v else .undefined) else getProp o k' := by
  induction o with
  | nil => simp [hasProp, getProp]
  | cons kv rest ih =>
    unfold getProp at *
    rw [List.map_cons]
    by_cases ha : kv.1.name = k.name
    · have e : (if kv.1.name == k.name then (k, v) else kv) = (k, v) := by simp [ha]
      rw [e]
      by_cases hk : k' = k.name
      · subst hk
        simp [hasProp, List.find?, ha]
      · have hk2 : (k' == k.name) = false := by simpa using hk
        have hk3 : (k.name == k') = false := by simpa using fun e : k.name = k' => hk e.symm
        have hk4 : (kv.1.name == k') = false := by rw [ha]; exact hk3
        rw [List.find?_cons, List.find?_cons, hk3, hk4]
        simp only [hk2, Bool.false_eq_true, if_false] at ih ⊢
        exact ih
    · have hak : (kv.1.name == k.name) = false := by simpa using ha
      have e : (if kv.1.name == k.name then (k, v) else kv) = kv := by simp [ha]
      rw [e, List.find?_cons, List.find?_cons]
      by_cases hk : k' = k.name
      · subst hk
        simp only [hak, beq_self_eq_true, if_true, hasProp, List.any_cons, Bool.false_or] at ih ⊢
        exact ih
      · have hk2 : (k' == k.name) = false := by simpa using hk
        simp only [hk2, Bool.false_eq_true, if_false] at ih ⊢
        cases (kv.1.name == k') with
        | true => rfl
        | false => exact ih

theorem getProp_append_singleton (o : PlainObj) (k : Key) (k' : String) (v : JsVal) :
    getProp (o ++ [(k, v)]) k' =
      if hasProp o k' then getProp o k' else if k.name == k' then v else .undefined := by
  induction o with
  | nil => cases h : (k.name == k') <;> simp [getProp, hasProp, List.find?, h]
  | cons kv rest ih =>
    unfold getProp at *
    rw [List.cons_append, List.find?_cons, List.find?_cons]
    cases hk : (kv.1.name == k') with
    | true => simp [hasProp, hk]
    | false =>
      simp only [hasProp, List.any_cons, hk, Bool.false_or] at ih ⊢
      exact ih

theorem getProp_setProp_self (o : PlainObj) (k : Key) (v : JsVal) :
    getProp (setProp o k v) k.name = v := by
  unfold setProp
  cases hp : hasProp o k.name with
  | false =>
    simp only [Bool.false_eq_true, if_false]
    rw [getProp_append_singleton]
    simp [hp]
  | true =>
    simp only [if_true]
    rw [getProp_map_overwrite]
    simp [hp]

theorem getProp_setProp_of_ne (o : PlainObj) (k : Key) (k' : String) (v : JsVal)
    (h : k' ≠ k.name) : getProp (setProp o k v) k' = getProp o k' := by
  have hk : (k' == k.name) = false := by simpa using h
  have hk2 : (k.name == k') = false := by simpa using fun e : k.name = k' => h e.symm
  unfold setProp
  cases hasProp o k.name with
  | false =>
    simp only [Bool.false_eq_true, if_false]
    rw [getProp_append_singleton]
    cases hp : hasProp o k' with
    | true => simp
    | false => simp [hk2, getProp_eq_undefined_of_hasProp_false o k' hp]
  | true =>
    simp only [if_true]
    rw [getProp_map_overwrite]
    simp [hk]

theorem hasProp_setProp_self (o : PlainObj) (k : Key) (v : JsVal) :
    hasProp (setProp o k v) k.name = true := by
  unfold setProp
  cases hp : hasProp o k.name with
  | false => simp [hasProp]
  | true =>
    simp only [if_true]
    induction o with
    | nil => simp [hasProp] at hp
    | cons kv rest ih =>
      by_cases ha : kv.1.name = k.name
      · simp [hasProp, ha]
      · have hak : (kv.1.name == k.name) = false := by simpa using ha
        have hrest : hasProp rest k.name = true := by simpa [hasProp, hak] using hp
        have := ih hrest
        simp only [hasProp, List.map_cons, hak, Bool.false_eq_true, if_false, List.any_cons,
          Bool.false_or] at this ⊢
        exact this

theorem hasProp_setProp_of_ne (o : PlainObj) (k : Key) (k' : String) (v : JsVal)
    (h : k' ≠ k.name) : hasProp (setProp o k v) k' = hasProp o k' := by
  have hk : (k.name == k') = false := by simpa using fun e : k.name = k' => h e.symm
  unfold setProp
  cases hasProp o k.name with
  | false => simp [hasProp, hk]
  | true =>
    simp only [if_true]
    induction o with
    | nil => rfl
    | cons kv rest ih =>
      simp only [hasProp, List.map_cons, List.any_cons] at ih ⊢
      by_cases ha : kv.1.name = k.name
      · have hkv : (kv.1.name == k') = false := by rw [ha]; exact hk
        simp only [ha, beq_self_eq_true, if_true, hk, hkv, Bool.false_or]
        exact ih
      · have hak : (kv.1.name == k.name) = false := by simpa using ha
        simp only [hak, Bool.false_eq_true, if_false]
        rw [ih]

/-! ## get, update, remove -/

/-- What `Job.get` does when the job lookup returns at least one row. -/
theorem Job.get_of_row (db : Db) (id : JsVal) (job : PlainObj) (rest : List PlainObj)
    (h : db Job.getSql [id] = job :: rest) :
    Job.get db id =
      ⟨[⟨Job.getSql, [id]⟩, ⟨Job.companySql, [getProp job "companyHandle"]⟩],
        .ok (setProp (deleteProp job "companyHandle") Key.company
          (firstRow (db Job.companySql [getProp job "companyHandle"])))⟩ := by
  simp only [Job.get, h]

/-- What `Job.get` does when the job lookup returns no row. -/
theorem Job.get_of_no_row (db : Db) (id : JsVal) (h : db Job.getSql [id] = []) :
    Job.get db id =
      ⟨[⟨Job.getSql, [id]⟩], .error (.NotFoundError ("No job: " ++ id.toStr))⟩ := by
  simp only [Job.get, h]

/-- The statement `Job.update` executes for a non-empty `data`, and its
outcome by the rows that statement returns. -/
theorem Job.update_of_data (db : Db) (id : JsVal) (data : JsObj) (h : data ≠ []) :
    (Job.update db id data).log = [Job.updateStmt id data] ∧
    (Job.update db id data).result =
      match db (Job.updateStmt id data).sql (Job.updateStmt id data).params with
      | [] => .error (.NotFoundError ("No job: " ++ id.toStr))
      | job :: _ => .ok job := by
  simp only [Job.update, sqlForPartialUpdate_ok data [] h, Job.updateStmt, List.length_map]
  constructor
  · split <;> rfl
  · split <;> simp_all

/-- C5: when the job lookup of `Job.get(id)` returns a row, the company
lookup is executed with the single parameter equal to that row's
`companyHandle`; the returned object agrees with the row on every property
other than `companyHandle` and `company` (so on id, title, salary and
equity), its `company` is the first row of the company lookup, and it has
no `companyHandle` property. -/
theorem Job.get_shape (db : Db) (id : JsVal) (job : PlainObj) (rest : List PlainObj)
    (h : db Job.getSql [id] = job :: rest) :
    (Job.get db id).log =
      [⟨Job.getSql, [id]⟩, ⟨Job.companySql, [getProp job "companyHandle"]⟩] ∧
    ∃ r : PlainObj, (Job.get db id).result = .ok r ∧
      getProp r "id" = getProp job "id" ∧
      getProp r "title" = getProp job "title" ∧
      getProp r "salary" = getProp job "salary" ∧
      getProp r "equity" = getProp job "equity" ∧
      (∀ k : String, k ≠ "companyHandle" → k ≠ "company" → getProp r k = getProp job k) ∧
      hasProp r "company" = true ∧
      getProp r "company" = firstRow (db Job.companySql [getProp job "companyHandle"]) ∧
      hasProp r "companyHandle" = false ∧
      getProp r "companyHandle" = .undefined := by
  have key : ∀ k : String, k ≠ "companyHandle" → k ≠ "company" →
      getProp (setProp (deleteProp job "companyHandle") Key.company
        (firstRow (db Job.companySql [getProp job "companyHandle"]))) k = getProp job k := by
    intro k h1 h2
    rw [getProp_setProp_of_ne _ _ _ _ h2, getProp_deleteProp_of_ne _ _ _ h1]
  have hno : hasProp (setProp (deleteProp job "companyHandle") Key.company
        (firstRow (db Job.companySql [getProp job "companyHandle"]))) "companyHandle"
        = false := by
    rw [hasProp_setProp_of_ne _ _ _ _ (by decide), hasProp_deleteProp_self]
  rw [Job.get_of_row db id job rest h]
  refine ⟨rfl, _, rfl, key _ (by decide) (by decide), key _ (by decide) (by decide),
    key _ (by decide) (by decide), key _ (by decide) (by decide), key,
    hasProp_setProp_self _ _ _, getProp_setProp_self _ _ _, hno,
    getProp_eq_undefined_of_hasProp_false _ _ hno⟩

/-- The row of the test "get: works", through C5. -/
theorem Job.get_shape_witness :
    ∃ r : PlainObj,
      (Job.get (fun sql _ =>
          if sql = Job.getSql then
            [[(⟨"id", by decide⟩, .num 1 (by decide)), (⟨"title", by decide⟩, .str "Job1"),
              (⟨"salary", by decide⟩, .num 100 (by decide)),
              (⟨"equity", by decide⟩, .str "0.1"), (⟨"companyHandle", by decide⟩, .str "c1")]]
          else [[(⟨"handle", by decide⟩, .str "c1"), (⟨"name", by decide⟩, .str "C1")]])
        (.num 1 (by decide))).result = .ok r ∧
      getProp r "title" = .str "Job1" ∧
      getProp r "company" =
        .obj [(⟨"handle", by decide⟩, .str "c1"), (⟨"name", by decide⟩, .str "C1")] ∧
      hasProp r "companyHandle" = false := by
  obtain ⟨_, r, hr, _, ht, _, _, _, _, hc, hn, _⟩ :=
    Job.get_shape (fun sql _ =>
          if sql = Job.getSql then
            [[(⟨"id", by decide⟩, .num 1 (by decide)), (⟨"title", by decide⟩, .str "Job1"),
              (⟨"salary", by decide⟩, .num 100 (by decide)),
              (⟨"equity", by decide⟩, .str "0.1"), (⟨"companyHandle", by decide⟩, .str "c1")]]
          else [[(⟨"handle", by decide⟩, .str "c1"), (⟨"name", by decide⟩, .str "C1")]])
      (.num 1 (by decide))
      [(⟨"id", by decide⟩, .num 1 (by decide)), (⟨"title", by decide⟩, .str "Job1"),
              (⟨"salary", by decide⟩, .num 100 (by decide)),
              (⟨"equity", by decide⟩, .str "0.1"), (⟨"companyHandle", by decide⟩, .str "c1")] [] (by simp)
  refine ⟨r, hr, ?_, ?_, hn⟩
  · rw [ht]; rfl
  · rw [hc]
    have : Job.companySql ≠ Job.getSql := by decide
    simp [this, firstRow]

/-- C4: each of `Job.get(id)`, `Job.remove(id)` and `Job.update(id, data)`
with non-empty `data` fails with NotFoundError exactly when its statement
keyed on `id` returns no row; it fails with no other error, the message is
`No job: ` followed by the id, and a failing `Job.get` has executed the job
lookup only. -/
theorem Job.notFound_iff_no_row (db : Db) (id : JsVal) (data : JsObj) (hdata : data ≠ []) :
    (((∃ msg, (Job.get db id).result = .error (.NotFoundError msg)) ↔
        db Job.getSql [id] = []) ∧
      (∀ e, (Job.get db id).result = .error e →
        e = .NotFoundError ("No job: " ++ id.toStr) ∧
        (Job.get db id).log = [⟨Job.getSql, [id]⟩])) ∧
    ((Job.remove db id).log = [⟨Job.removeSql, [id]⟩] ∧
      ((∃ msg, (Job.remove db id).result = .error (.NotFoundError msg)) ↔
        db Job.removeSql [id] = []) ∧
      (∀ e, (Job.remove db id).result = .error e →
        e = .NotFoundError ("No job: " ++ id.toStr))) ∧
    (∃ stmt : Stmt, (Job.update db id data).log = [stmt] ∧
      ((∃ msg, (Job.update db id data).result = .error (.NotFoundError msg)) ↔
        db stmt.sql stmt.params = []) ∧
      (∀ e, (Job.update db id data).result = .error e →
        e = .NotFoundError ("No job: " ++ id.toStr))) := by
  refine ⟨?_, ?_, ?_⟩
  · cases hrows : db Job.getSql [id] with
    | nil =>
      rw [Job.get_of_no_row db id hrows]
      refine ⟨⟨fun _ => rfl, fun _ => ⟨_, rfl⟩⟩, ?_⟩
      intro e he
      cases he
      exact ⟨rfl, rfl⟩
    | cons job rest =>
      rw [Job.get_of_row db id job rest hrows]
      refine ⟨⟨?_, fun h => by cases h⟩, ?_⟩
      · rintro ⟨msg, hmsg⟩
        cases hmsg
      · intro e he
        cases he
  · cases hrows : db Job.removeSql [id] with
    | nil =>
      have hr : Job.remove db id =
          ⟨[⟨Job.removeSql, [id]⟩], .error (.NotFoundError ("No job: " ++ id.toStr))⟩ := by
        simp only [Job.remove, hrows]
      rw [hr]
      refine ⟨rfl, ⟨fun _ => rfl, fun _ => ⟨_, rfl⟩⟩, ?_⟩
      intro e he
      cases he
      rfl
    | cons job rest =>
      have hr : Job.remove db id = ⟨[⟨Job.removeSql, [id]⟩], .ok ()⟩ := by
        simp only [Job.remove, hrows]
      rw [hr]
      refine ⟨rfl, ⟨?_, fun h => by cases h⟩, ?_⟩
      · rintro ⟨msg, hmsg⟩
        cases hmsg
      · intro e he
        cases he
  · obtain ⟨hlog, hres⟩ := Job.update_of_data db id data hdata
    refine ⟨_, hlog, ?_, ?_⟩
    · rw [hres]
      cases db (Job.updateStmt id data).sql (Job.updateStmt id data).params with
      | nil => exact ⟨fun _ => rfl, fun _ => ⟨_, rfl⟩⟩
      | cons job rest =>
        refine ⟨?_, fun h => by cases h⟩
        rintro ⟨msg, hmsg⟩
        cases hmsg
    · rw [hres]
      cases db (Job.updateStmt id data).sql (Job.updateStmt id data).params with
      | nil =>
        intro e he
        cases he
        rfl
      | cons job rest =>
        intro e he
        cases he

/-- On the empty database of the tests "not found if no such job", through
C4: the message carries the id as JavaScript prints it, whether the id is
an integer, a string as the routes pass it, a large number, `null`,
`undefined`, a boolean or a plain object. -/
theorem Job.notFound_iff_no_row_witness :
    (Job.get (fun _ _ => []) (.num 17 (by decide))).result =
      .error (.NotFoundError "No job: 17") ∧
    (Job.get (fun _ _ => []) (.num 17 (by decide))).log =
      [⟨Job.getSql, [.num 17 (by decide)]⟩] ∧
    (Job.get (fun _ _ => []) (.num (-3) (by decide))).result =
      .error (.NotFoundError "No job: -3") ∧
    (Job.get (fun _ _ => []) (.str "abc")).result = .error (.NotFoundError "No job: abc") ∧
    (Job.get (fun _ _ => []) (.other 0 "1e+21")).result =
      .error (.NotFoundError "No job: 1e+21") ∧
    (Job.get (fun _ _ => []) .null).result = .error (.NotFoundError "No job: null") ∧
    (Job.get (fun _ _ => []) .undefined).result =
      .error (.NotFoundError "No job: undefined") ∧
    (Job.get (fun _ _ => []) (.bool true)).result = .error (.NotFoundError "No job: true") ∧
    (Job.get (fun _ _ => []) (.bool false)).result =
      .error (.NotFoundError "No job: false") ∧
    (Job.get (fun _ _ => []) (.obj [])).result =
      .error (.NotFoundError "No job: [object Object]") ∧
    (Job.remove (fun _ _ => []) (.num 17 (by decide))).result =
      .error (.NotFoundError "No job: 17") ∧
    (Job.remove (fun _ _ => []) (.str "abc")).result =
      .error (.NotFoundError "No job: abc") ∧
    (Job.update (fun _ _ => []) (.num 17 (by decide)) [("title", .str "New")]).result =
      .error (.NotFoundError "No job: 17") ∧
    (Job.update (fun _ _ => []) (.other 0 "1e+21") [("title", .str "New")]).result =
      .error (.NotFoundError "No job: 1e+21") := by
  have key : ∀ id : JsVal,
      (Job.get (fun _ _ => []) id).result =
        .error (.NotFoundError ("No job: " ++ id.toStr)) ∧
      (Job.get (fun _ _ => []) id).log = [⟨Job.getSql, [id]⟩] ∧
      (Job.remove (fun _ _ => []) id).result =
        .error (.NotFoundError ("No job: " ++ id.toStr)) ∧
      (Job.update (fun _ _ => []) id [("title", .str "New")]).result =
        .error (.NotFoundError ("No job: " ++ id.toStr)) := by
    intro id
    obtain ⟨⟨hg, hg2⟩, ⟨_, hr, hr2⟩, ⟨stmt, _, hu, hu2⟩⟩ :=
      Job.notFound_iff_no_row (fun _ _ => []) id [("title", .str "New")] (by simp)
    obtain ⟨m1, h1⟩ := hg.2 rfl
    obtain ⟨m2, h2⟩ := hr.2 rfl
    obtain ⟨m3, h3⟩ := hu.2 rfl
    have e1 := (hg2 _ h1).1
    have l1 := (hg2 _ h1).2
    have e2 := hr2 _ h2
    have e3 := hu2 _ h3
    rw [h1, h2, h3, e1, e2, e3]
    exact ⟨rfl, l1, rfl, rfl⟩
  have s17 : "No job: " ++ (JsVal.num 17 (by decide)).toStr = "No job: 17" := by decide
  have s3 : "No job: " ++ (JsVal.num (-3) (by decide)).toStr = "No job: -3" := by decide
  have sabc : "No job: " ++ (JsVal.str "abc").toStr = "No job: abc" := by decide
  have sbig : "No job: " ++ (JsVal.other 0 "1e+21").toStr = "No job: 1e+21" := by decide
  have snull : "No job: " ++ JsVal.null.toStr = "No job: null" := by decide
  have sund : "No job: " ++ JsVal.undefined.toStr = "No job: undefined" := by decide
  have strue : "No job: " ++ (JsVal.bool true).toStr = "No job: true" := by decide
  have sfalse : "No job: " ++ (JsVal.bool false).toStr = "No job: false" := by decide
  have sobj : "No job: " ++ (JsVal.obj []).toStr = "No job: [object Object]" := by decide
  refine ⟨?_, (key _).2.1, ?_, ?_, ?_, ?_, ?_, ?_, ?_, ?_, ?_, ?_, ?_, ?_⟩
  · rw [(key _).1, s17]
  · rw [(key _).1, s3]
  · rw [(key _).1, sabc]
  · rw [(key _).1, sbig]
  · rw [(key _).1, snull]
  · rw [(key _).1, sund]
  · rw [(key _).1, strue]
  · rw [(key _).1, sfalse]
  · rw [(key _).1, sobj]
  · rw [(key _).2.2.1, s17]
  · rw [(key _).2.2.1, sabc]
  · rw [(key _).2.2.2, s17]
  · rw [(key _).2.2.2, sbig]

/-- C7: for a non-empty `data` with n entries, `Job.update` calls the
helper with the empty table and executes one statement: the template with
the returned `setCols` as SET clause and `$(n+1)` in `WHERE id = ...`, its
parameters the returned values followed by `id`.  The SET fragments carry
`$1..$n` in order, the parameter list has n + 1 elements and `id` is the
last, at the position of `$(n+1)`. -/
theorem Job.update_statement (db : Db) (id : JsVal) (data : JsObj) (h : data ≠ []) :
    ∃ r : PartialUpdate, sqlForPartialUpdate data [] = .ok r ∧
      ∃ stmt : Stmt, (Job.update db id data).log = [stmt] ∧
        stmt.sql = Job.updateSql r.setCols ("$" ++ toString (data.length + 1)) ∧
        stmt.sql =
          "UPDATE jobs\n                          SET " ++ r.setCols ++
          "\n                          WHERE id = $" ++ toString (data.length + 1) ++
          "\n                          RETURNING id,\n                                    title,\n                                    salary,\n                                    equity,\n                                    company_handle AS \"companyHandle\"" ∧
        r.setCols = ", ".intercalate
          (((data.map Prod.fst).enumFrom 1).map fun p => "\"" ++ p.2 ++ "\"=$" ++ toString p.1) ∧
        stmt.params = r.values ++ [id] ∧
        r.values = data.map Prod.snd ∧
        stmt.params.length = data.length + 1 ∧
        stmt.params.getLast? = some id ∧
        stmt.params[data.length]? = some id := by
  refine ⟨_, sqlForPartialUpdate_ok data [] h, _, (Job.update_of_data db id data h).1,
    rfl, ?_, rfl, rfl, rfl, ?_, ?_, ?_⟩
  · simp only [Job.updateStmt, Job.updateSql, String.append_assoc]
    rfl
  · simp [Job.updateStmt]
  · simp [Job.updateStmt]
  · simp [Job.updateStmt]

/-- The update of the test "update: works", through C7. -/
theorem Job.update_statement_witness :
    ∃ stmt : Stmt,
      (Job.update (fun _ _ => []) (.num 7 (by decide))
        [("title", .str "New"), ("salary", .num 1000 (by decide)),
          ("equity", .str "0.101")]).log
        = [stmt] ∧
      stmt.sql = Job.updateSql "\"title\"=$1, \"salary\"=$2, \"equity\"=$3" "$4" ∧
      placeholders stmt.sql = [1, 2, 3, 4] ∧
      stmt.params = [.str "New", .num 1000 (by decide), .str "0.101", .num 7 (by decide)] := by
  obtain ⟨r, hr, stmt, hlog, hsql, _, hset, hp, hv, _⟩ :=
    Job.update_statement (fun _ _ => []) (.num 7 (by decide))
      [("title", .str "New"), ("salary", .num 1000 (by decide)), ("equity", .str "0.101")]
      (by simp)
  refine ⟨stmt, hlog, ?_, ?_, ?_⟩
  · rw [hsql, hset]; decide
  · rw [hsql, hset]; decide
  · rw [hp, hv]; rfl

/-! ## findAll -/

/-- The filter part in closed form. -/
theorem Job.findAllFilters_eq (t m e : JsVal) :
    Job.findAllFilters t m e = (Spec.parameters t m, Spec.whereConditions t m e) := by
  unfold Job.findAllFilters Spec.parameters Spec.whereConditions
  cases t.isDefined <;> cases m.isDefined <;> cases e.isTrue <;>
    simp only [Bool.false_eq_true, if_true, if_false, List.nil_append, List.append_nil,
      List.length_singleton, List.length_cons, List.length_nil, List.singleton_append,
      List.cons_append, Prod.mk.injEq, true_and, and_true] <;>
    decide

/-- The placeholders of the listing statement are `$1..$(number of
parameters)`, in that order. -/
theorem Job.findAllStmt_placeholders (t m e : JsVal) :
    placeholders (Job.findAllStmt t m e).sql =
      List.range' 1 (Job.findAllStmt t m e).params.length := by
  simp only [Job.findAllStmt, Job.findAllFilters_eq, Spec.parameters, Spec.whereConditions]
  cases t.isDefined <;> cases m.isDefined <;> cases e.isTrue <;>
    simp only [Bool.false_eq_true, if_true, if_false, List.nil_append, List.append_nil,
      List.length_singleton, List.length_cons, List.length_nil, List.singleton_append,
      List.cons_append] <;>
    decide

/-- The text of the listing statement in closed form. -/
theorem Job.findAllStmt_sql (t m e : JsVal) :
    (Job.findAllStmt t m e).sql =
      Job.findAllBase ++
        (if (Spec.whereConditions t m e).isEmpty then ""
          else " WHERE " ++ " AND ".intercalate (Spec.whereConditions t m e)) ++
        " ORDER BY title " := by
  simp only [Job.findAllStmt, Job.findAllFilters_eq, Spec.whereConditions]
  cases t.isDefined <;> cases m.isDefined <;> cases e.isTrue <;>
    simp only [Bool.false_eq_true, if_true, if_false, List.nil_append, List.append_nil,
      List.length_singleton, List.length_cons, List.length_nil, List.singleton_append,
      List.cons_append] <;>
    decide

/-- C2: for every filter object, `Job.findAll` executes one statement: the
base SELECT, then ` WHERE ` and the conditions of the applied filters in
the order title, salary, equity joined with ` AND ` (nothing when no filter
is applied), then ` ORDER BY title `; the parameters are the wrapped title
if present, then minSalary if present; the placeholders of the text are
`$1..$(number of parameters)` in order; a false and an absent hasEquity
give the same statement; the rows of that statement are returned. -/
theorem Job.findAll_statement (db : Db) (o : PlainObj) :
    ∃ stmt : Stmt,
      (Job.findAll db (.obj o)).log = [stmt] ∧
      (Job.findAll db (.obj o)).result = .ok (db stmt.sql stmt.params) ∧
      stmt.sql =
        Job.findAllBase ++
          (if (Spec.whereConditions (getProp o "title") (getProp o "minSalary")
                (getProp o "hasEquity")).isEmpty then ""
            else " WHERE " ++ " AND ".intercalate
              (Spec.whereConditions (getProp o "title") (getProp o "minSalary")
                (getProp o "hasEquity"))) ++
          " ORDER BY title " ∧
      stmt.params = Spec.parameters (getProp o "title") (getProp o "minSalary") ∧
      placeholders stmt.sql = List.range' 1 stmt.params.length ∧
      ((getProp o "title").isDefined = false → (getProp o "minSalary").isDefined = false →
        (getProp o "hasEquity").isTrue = false →
          stmt.sql = Job.findAllBase ++ " ORDER BY title " ∧ stmt.params = []) ∧
      ((getProp o "title").isDefined = false → (getProp o "minSalary").isDefined = true →
        (getProp o "hasEquity").isTrue = false →
          stmt.sql = Job.findAllBase ++ " WHERE salary >= $1 ORDER BY title " ∧
          stmt.params = [getProp o "minSalary"]) ∧
      (∀ t m : JsVal, Job.findAllStmt t m (.bool false) = Job.findAllStmt t m .undefined) := by
  refine ⟨Job.findAllStmt (getProp o "title") (getProp o "minSalary") (getProp o "hasEquity"),
    rfl, rfl, Job.findAllStmt_sql _ _ _, ?_, Job.findAllStmt_placeholders _ _ _, ?_, ?_,
    fun _ _ => rfl⟩
  · simp only [Job.findAllStmt, Job.findAllFilters_eq]
  · intro h1 h2 h3
    simp only [Job.findAllStmt, Job.findAllFilters_eq, Spec.parameters, Spec.whereConditions,
      h1, h2, h3]
    exact ⟨by decide, rfl⟩
  · intro h1 h2 h3
    simp only [Job.findAllStmt, Job.findAllFilters_eq, Spec.parameters, Spec.whereConditions,
      h1, h2, h3]
    exact ⟨by decide, rfl⟩

/-- A title and a minimum salary with the equity flag set, through C2; then
titles that are not strings: the parameter carries the title as JavaScript
prints it. -/
theorem Job.findAll_statement_witness :
    (∃ stmt : Stmt,
      (Job.findAll (fun _ _ => [])
        (.obj [(⟨"title", by decide⟩, .str "eng"),
          (⟨"minSalary", by decide⟩, .num 100 (by decide)),
          (⟨"hasEquity", by decide⟩, .bool true)])).log = [stmt] ∧
      stmt.sql = Job.findAllBase ++
        " WHERE title ILIKE $1 AND salary >= $2 AND equity > 0 ORDER BY title " ∧
      stmt.params = [.str "%eng%", .num 100 (by decide)] ∧
      placeholders stmt.sql = [1, 2]) ∧
    (Job.findAll (fun _ _ => [])
        (.obj [(⟨"title", by decide⟩, .num 5 (by decide))])).log.map Stmt.params =
      [[.str "%5%"]] ∧
    (Job.findAll (fun _ _ => [])
        (.obj [(⟨"title", by decide⟩, .num (-2) (by decide))])).log.map Stmt.params =
      [[.str "%-2%"]] ∧
    (Job.findAll (fun _ _ => [])
        (.obj [(⟨"title", by decide⟩, .other 0 "1e+21")])).log.map Stmt.params =
      [[.str "%1e+21%"]] ∧
    (Job.findAll (fun _ _ => [])
        (.obj [(⟨"title", by decide⟩, .null),
          (⟨"minSalary", by decide⟩, .other 1 "NaN")])).log.map Stmt.params =
      [[.str "%null%", .other 1 "NaN"]] ∧
    (Job.findAll (fun _ _ => [])
        (.obj [(⟨"title", by decide⟩, .bool false)])).log.map Stmt.params =
      [[.str "%false%"]] ∧
    (Job.findAll (fun _ _ => [])
        (.obj [(⟨"title", by decide⟩, .bool true)])).log.map Stmt.params =
      [[.str "%true%"]] ∧
    (Job.findAll (fun _ _ => [])
        (.obj [(⟨"title", by decide⟩, .obj [])])).log.map Stmt.params =
      [[.str "%[object Object]%"]] := by
  have key : ∀ o : PlainObj,
      (Job.findAll (fun _ _ => []) (.obj o)).log.map Stmt.params =
        [Spec.parameters (getProp o "title") (getProp o "minSalary")] := by
    intro o
    obtain ⟨stmt, hlog, _, _, hp, _⟩ := Job.findAll_statement (fun _ _ => []) o
    rw [hlog, List.map_cons, List.map_nil, hp]
  refine ⟨?_, ?_, ?_, ?_, ?_, ?_, ?_, ?_⟩
  · obtain ⟨stmt, hlog, _, hsql, hp, hph, _⟩ :=
      Job.findAll_statement (fun _ _ => [])
        [(⟨"title", by decide⟩, .str "eng"),
          (⟨"minSalary", by decide⟩, .num 100 (by decide)),
          (⟨"hasEquity", by decide⟩, .bool true)]
    refine ⟨stmt, hlog, ?_, ?_, ?_⟩
    · rw [hsql]; decide
    · rw [hp]; rfl
    · rw [hph, hp]; rfl
  · rw [key]
    have e : "%" ++ (JsVal.num 5 (by decide)).toStr ++ "%" = "%5%" := by decide
    simp only [Spec.parameters, getProp, List.find?, beq_self_eq_true, JsVal.isDefined,
      if_true, e]
    rfl
  · rw [key]
    have e : "%" ++ (JsVal.num (-2) (by decide)).toStr ++ "%" = "%-2%" := by decide
    simp only [Spec.parameters, getProp, List.find?, beq_self_eq_true, JsVal.isDefined,
      if_true, e]
    rfl
  · rw [key]
    have e : "%" ++ (JsVal.other 0 "1e+21").toStr ++ "%" = "%1e+21%" := by decide
    simp only [Spec.parameters, getProp, List.find?, beq_self_eq_true, JsVal.isDefined,
      if_true, e]
    rfl
  · rw [key]
    have e : "%" ++ JsVal.null.toStr ++ "%" = "%null%" := by decide
    have k1 : ("title" == "minSalary") = false := by decide
    simp only [Spec.parameters, getProp, List.find?, beq_self_eq_true, JsVal.isDefined,
      if_true, e, k1]
    rfl
  · rw [key]
    have e : "%" ++ (JsVal.bool false).toStr ++ "%" = "%false%" := by decide
    simp only [Spec.parameters, getProp, List.find?, beq_self_eq_true, JsVal.isDefined,
      if_true, e]
    rfl
  · rw [key]
    have e : "%" ++ (JsVal.bool true).toStr ++ "%" = "%true%" := by decide
    simp only [Spec.parameters, getProp, List.find?, beq_self_eq_true, JsVal.isDefined,
      if_true, e]
    rfl
  · rw [key]
    have e : "%" ++ (JsVal.obj []).toStr ++ "%" = "%[object Object]%" := by decide
    simp only [Spec.parameters, getProp, List.find?, beq_self_eq_true, JsVal.isDefined,
      if_true, e]
    rfl

/-- C8, as stated, fails: with only `hasEquity: true` one filter is
applied, its clause `equity > 0` holds no placeholder, and the parameter
list is empty. -/
theorem Job.findAll_equity_no_placeholder :
    Spec.appliedFilters .undefined .undefined (.bool true) = 1 ∧
    (Job.findAllFilters .undefined .undefined (.bool true)).2 = ["equity > 0"] ∧
    placeholders "equity > 0" = [] ∧
    (Job.findAllFilters .undefined .undefined (.bool true)).1.length ≠
      Spec.appliedFilters .undefined .undefined (.bool true) ∧
    placeholders (Job.findAllStmt .undefined .undefined (.bool true)).sql = [] := by
  refine ⟨rfl, rfl, by decide, by decide, by decide⟩

/-- C8, amended: an applied title filter or minSalary filter appends one
parameter and one clause whose placeholder is numbered by the number of
parameters pushed so far, so the k-th such clause holds `$k` alone; an
applied hasEquity filter appends the clause `equity > 0`, with no
placeholder and no parameter; there is one clause per applied filter and
one parameter per applied filter among title and minSalary. -/
theorem Job.findAll_filters_numbering (t m e : JsVal) :
    (Job.findAllFilters t m e).2.length = Spec.appliedFilters t m e ∧
    (Job.findAllFilters t m e).1.length =
      Spec.appliedFilters t m .undefined ∧
    (∀ k : Nat, k < (Job.findAllFilters t m e).1.length →
      ((Job.findAllFilters t m e).2.map placeholders)[k]? = some [k + 1]) ∧
    (e.isTrue = true →
      (Job.findAllFilters t m e).2.getLast? = some "equity > 0" ∧
      ((Job.findAllFilters t m e).2.map placeholders).getLast? = some [] ∧
      Job.findAllFilters t m e =
        ((Job.findAllFilters t m .undefined).1,
          (Job.findAllFilters t m .undefined).2 ++ ["equity > 0"])) ∧
    (e.isTrue = false → Job.findAllFilters t m e = Job.findAllFilters t m .undefined) := by
  have hlen : (Spec.parameters t m).length =
      (if t.isDefined then 1 else 0) + (if m.isDefined then 1 else 0) := by
    unfold Spec.parameters
    cases t.isDefined <;> cases m.isDefined <;> simp
  have hu : JsVal.undefined.isTrue = false := rfl
  simp only [Job.findAllFilters_eq, hlen, Spec.whereConditions, Spec.appliedFilters, hu,
    Prod.mk.injEq, true_and]
  generalize t.isDefined = bt
  generalize m.isDefined = bm
  generalize e.isTrue = be
  revert bt bm be
  decide

/-- A title with the equity flag set, through the amended C8. -/
theorem Job.findAll_filters_numbering_witness :
    Job.findAllFilters (.str "eng") .undefined (.bool true) =
      ([.str "%eng%"], ["title ILIKE $1", "equity > 0"]) := by
  have h := (Job.findAll_filters_numbering (.str "eng") .undefined (.bool true)).2.2.2.1 rfl
  rw [h.2.2]
  rfl

/-- C9: called with no argument, as the test "works: no filter" calls it,
`Job.findAll` throws a TypeError while binding its destructuring parameter
and executes no statement. -/
theorem Job.findAll_no_argument (db : Db) :
    (Job.findAll db .undefined).result = .error .TypeError ∧
    (Job.findAll db .undefined).log = [] :=
  ⟨rfl, rfl⟩

/-- What the test expects of the call without argument is what the call
with an empty filter object does. -/
theorem Job.findAll_empty_object (db : Db) :
    (Job.findAll db (.obj [])).log = [⟨Job.findAllBase ++ " ORDER BY title ", []⟩] ∧
    (Job.findAll db (.obj [])).result =
      .ok (db (Job.findAllBase ++ " ORDER BY title ") []) := by
  have h : Job.findAllStmt (getProp [] "title") (getProp [] "minSalary")
      (getProp [] "hasEquity") = ⟨Job.findAllBase ++ " ORDER BY title ", []⟩ := by
    have hs := Job.findAllStmt_sql .undefined .undefined .undefined
    have hd : (Job.findAllStmt .undefined .undefined .undefined).sql
        = Job.findAllBase ++ " ORDER BY title " := by rw [hs]; decide
    show Job.findAllStmt .undefined .undefined .undefined = _
    cases hst : Job.findAllStmt .undefined .undefined .undefined with
    | mk sql params =>
      rw [hst] at hd
      have hp : (Job.findAllStmt .undefined .undefined .undefined).params = [] := rfl
      rw [hst] at hp
      simp only at hd hp
      rw [hd, hp]
  simp only [Job.findAll, h]
  exact ⟨trivial, trivial⟩

/-- C10: an update of `companyHandle` names the column `"companyHandle"` in
its SET clause, which is none of the columns of `jobs`. -/
theorem Job.update_companyHandle_column (db : Db) (id : JsVal) (v : JsVal) :
    (Job.update db id [("companyHandle", v)]).log.map Stmt.sql =
      [Job.updateSql "\"companyHandle\"=$1" "$2"] ∧
    columnName [] "companyHandle" = "companyHandle" ∧
    "companyHandle" ∉ jobsColumns ∧
    columnName [] "companyHandle" ≠ "company_handle" := by
  refine ⟨?_, rfl, by decide, by decide⟩
  rw [(Job.update_of_data db id [("companyHandle", v)] (by simp)).1]
  simp only [Job.updateStmt, List.map_cons, List.map_nil, List.length_singleton,
    List.cons.injEq, and_true]
  decide

/-! ## Values stay out of the statement text -/

/-- C3: the text `Job.findAll` executes depends only on whether title is
present, whether minSalary is present and whether hasEquity is true; the
text `Job.update` executes, and `setCols`, depend only on the keys of the
data and their order, not on the values nor on the id. -/
theorem Job.sql_text_independent_of_values :
    (∀ (db db' : Db) (o o' : PlainObj),
      (getProp o "title").isDefined = (getProp o' "title").isDefined →
      (getProp o "minSalary").isDefined = (getProp o' "minSalary").isDefined →
      (getProp o "hasEquity").isTrue = (getProp o' "hasEquity").isTrue →
      (Job.findAll db (.obj o)).log.map Stmt.sql =
        (Job.findAll db' (.obj o')).log.map Stmt.sql) ∧
    (∀ (db db' : Db) (id id' : JsVal) (data data' : JsObj),
      data.map Prod.fst = data'.map Prod.fst →
      (Job.update db id data).log.map Stmt.sql =
        (Job.update db' id' data').log.map Stmt.sql) ∧
    (∀ (T : List (String × String)) (data data' : JsObj),
      data.map Prod.fst = data'.map Prod.fst →
      (sqlForPartialUpdate data T).map PartialUpdate.setCols =
        (sqlForPartialUpdate data' T).map PartialUpdate.setCols) := by
  refine ⟨?_, ?_, ?_⟩
  · intro db db' o o' h1 h2 h3
    simp only [Job.findAll, List.map_cons, List.map_nil, Job.findAllStmt_sql,
      Spec.whereConditions, h1, h2, h3]
  · intro db db' id id' data data' hk
    have hlen : data.length = data'.length := by
      have := congrArg List.length hk
      simpa using this
    cases data with
    | nil =>
      cases data' with
      | nil => rfl
      | cons a b => simp at hk
    | cons kv rest =>
      cases data' with
      | nil => simp at hk
      | cons kv' rest' =>
        rw [(Job.update_of_data db id (kv :: rest) (List.cons_ne_nil _ _)).1,
          (Job.update_of_data db' id' (kv' :: rest') (List.cons_ne_nil _ _)).1]
        simp only [Job.updateStmt, List.map_cons, List.map_nil, hk, hlen]
  · intro T data data' hk
    cases data with
    | nil =>
      cases data' with
      | nil => rfl
      | cons a b => simp at hk
    | cons kv rest =>
      cases data' with
      | nil => simp at hk
      | cons kv' rest' =>
        rw [sqlForPartialUpdate_ok _ _ (List.cons_ne_nil _ _),
          sqlForPartialUpdate_ok _ _ (List.cons_ne_nil _ _)]
        simp only [Except.map, hk]

/-- Two searches and two updates that differ in their values only, through
C3. -/
theorem Job.sql_text_independent_of_values_witness :
    (Job.findAll (fun _ _ => [])
        (.obj [(⟨"title", by decide⟩, .str "a"),
          (⟨"minSalary", by decide⟩, .num 1 (by decide))])).log.map Stmt.sql =
      (Job.findAll (fun _ _ => [])
        (.obj [(⟨"title", by decide⟩, .str "x OR 1=1"),
          (⟨"minSalary", by decide⟩, .num 2 (by decide))])).log.map Stmt.sql ∧
    (Job.update (fun _ _ => []) (.num 1 (by decide)) [("title", .str "a")]).log.map Stmt.sql =
      (Job.update (fun _ _ => []) (.str "1 OR 1=1") [("title", .str "$9")]).log.map
        Stmt.sql :=
  ⟨Job.sql_text_independent_of_values.1 _ _ _ _ rfl rfl rfl,
    Job.sql_text_independent_of_values.2.1 _ _ _ _ _ _ rfl⟩

/-- C1: for a non-empty mapping `F` and any table `T`, `setCols` is the
fragments `"<c_i>"=$i`, i = 1..n in `F`'s order, joined with `", "`, where
`c_i` is `T`'s entry for the i-th key or that key itself when `T` has none,
and `values` is the list of `F`'s values in the same order: n fragments, n
values. -/
theorem sqlForPartialUpdate_spec (F : JsObj) (T : List (String × String)) (h : F ≠ []) :
    ∃ r : PartialUpdate, sqlForPartialUpdate F T = .ok r ∧
      (∃ frags : List String,
        r.setCols = ", ".intercalate frags ∧
        frags.length = F.length ∧
        ∀ (i : Nat) (hi : i < F.length),
          frags[i]? = some ("\"" ++ ((T.lookup (F.get ⟨i, hi⟩).1).getD (F.get ⟨i, hi⟩).1)
            ++ "\"=$" ++ toString (i + 1))) ∧
      r.values = F.map Prod.snd ∧
      r.values.length = F.length := by
  refine ⟨_, sqlForPartialUpdate_ok F T h, ⟨_, rfl, by simp, ?_⟩, rfl, by simp⟩
  intro i hi
  simp only [List.getElem?_map, List.getElem?_enumFrom, List.getElem?_eq_getElem hi,
    Option.map_some', List.get_eq_getElem, setFragment, columnName]
  cases hl : List.lookup (F[i]).1 T <;> simp [Nat.add_comm]

/-- The two-field example of C1, obtained from the general statement. -/
theorem sqlForPartialUpdate_spec_witness :
    ∃ r : PartialUpdate,
      sqlForPartialUpdate [("firstName", .str "Aliya"), ("age", .num 32 (by decide))]
        [("firstName", "first_name"), ("age", "age")] = .ok r ∧
      r.setCols = "\"first_name\"=$1, \"age\"=$2" ∧
      placeholders r.setCols = [1, 2] ∧
      r.values = [.str "Aliya", .num 32 (by decide)] := by
  obtain ⟨r, hr, _, hv, _⟩ :=
    sqlForPartialUpdate_spec [("firstName", .str "Aliya"), ("age", .num 32 (by decide))]
      [("firstName", "first_name"), ("age", "age")] (by simp)
  have h2 : sqlForPartialUpdate [("firstName", .str "Aliya"), ("age", .num 32 (by decide))]
      [("firstName", "first_name"), ("age", "age")]
      = .ok { setCols := "\"first_name\"=$1, \"age\"=$2",
              values := [.str "Aliya", .num 32 (by decide)] } := rfl
  refine ⟨r, hr, ?_, ?_, hv⟩
  · rw [h2] at hr
    cases hr
    rfl
  · rw [h2] at hr
    cases hr
    decide

end Jobly
